import Mathlib

/-!
# Verification of the Game of Life simulation engine (`src/main.py`)

Shallow embedding of the engine core of `main.py`: the grid state, the
generation step `update_grid`, its inline neighbor counting (exposed here as
`count_alive_neighbors`, as the spec's interface section allows), and the
interactive cell mutation `toggle_cell`.  Cells are machine integers in the
source (`np.zeros(..., dtype=int)`), so cell values are embedded as `Int`;
a live cell is `1` and a dead cell is `0`.
-/

/-- Constants from the top of `main.py`. -/
def GRID_WIDTH : Nat := 800

def ROWS : Nat := 50

def COLS : Nat := 50

/-- Constant `CELL_SIZE = GRID_WIDTH // COLS` from the source. -/
def CELL_SIZE : Nat := GRID_WIDTH / COLS

/-- A grid: the source stores a numpy matrix of shape `(rows, cols)` of ints.
The session grid of `main.py` always has `rows = ROWS`, `cols = COLS`; the
engine functions read the shape only through these bounds, so the embedding
carries the dimensions alongside the cell matrix. -/
structure Grid where
  rows : Nat
  cols : Nat
  cells : List (List Int)
  deriving DecidableEq, Repr

/-- Reads `grid[r, c]` for in-range indices; out-of-range physical access defaults
to `0` (the engine only reads in-range indices). -/
def Grid.get (g : Grid) (r c : Nat) : Int :=
  (g.cells.getD r []).getD c 0

/-- Writes `grid[r, c] = v`. -/
def Grid.set (g : Grid) (r c : Nat) (v : Int) : Grid :=
  { g with cells := g.cells.set r ((g.cells.getD r []).set c v) }

/-- The cell matrix physically has shape `rows × cols`, as every numpy array
in the source does. -/
def Grid.WellFormed (g : Grid) : Prop :=
  g.cells.length = g.rows ∧ ∀ row ∈ g.cells, row.length = g.cols

/-- Every cell is `0` (dead) or `1` (alive). -/
def Grid.Binary (g : Grid) : Prop :=
  ∀ row ∈ g.cells, ∀ v ∈ row, v = 0 ∨ v = 1

/-- Row-major matrix of shape `rows × cols` whose entry at `(r, c)` is `f r c`. -/
def mkCells (rows cols : Nat) (f : Nat → Nat → Int) : List (List Int) :=
  (List.range rows).map (fun r => (List.range cols).map (f r))

/-- The two nested loops `for i in [-1, 0, 1]: for j in [-1, 0, 1]:` of
`update_grid`, in iteration order. -/
def neighbor_offsets : List (Int × Int) :=
  [(-1, -1), (-1, 0), (-1, 1), (0, -1), (0, 0), (0, 1), (1, -1), (1, 0), (1, 1)]

/-- The inline neighbor count of `update_grid` (`main.py` lines 212-223),
exposed as the spec's `count_alive_neighbors(grid, row, col, wrapped)`.
The center offset `(0, 0)` is skipped (`continue`); in wrapped mode the
neighbor coordinates are reduced with Python's `%` (Euclidean remainder,
`Int.emod`); in bounded mode out-of-range coordinates are excluded.
The accumulator adds the stored cell value, exactly as
`alive_neighbors += grid[r, c]` does. -/
def count_alive_neighbors (g : Grid) (row col : Int) (wrap : Bool) : Int :=
  neighbor_offsets.foldl
    (fun acc ij =>
      if ij.1 = 0 ∧ ij.2 = 0 then acc
      else
        let r := row + ij.1
        let c := col + ij.2
        if wrap then
          acc + g.get ((r % (g.rows : Int)).toNat) ((c % (g.cols : Int)).toNat)
        else if 0 ≤ r ∧ r < (g.rows : Int) ∧ 0 ≤ c ∧ c < (g.cols : Int) then
          acc + g.get r.toNat c.toNat
        else acc)
    0

/-- The loop body of `update_grid` for one cell (`main.py` lines 225-229):
the source writes `0` into `new_grid` when a live cell has fewer than 2 or
more than 3 alive neighbors, writes `1` when a dead cell has exactly 3, and
otherwise leaves the value copied from the old grid
(`new_grid = np.copy(grid)`). -/
def new_cell (g : Grid) (wrap : Bool) (row col : Nat) : Int :=
  let alive_neighbors := count_alive_neighbors g row col wrap
  if g.get row col = 1 ∧ (alive_neighbors < 2 ∨ alive_neighbors > 3) then 0
  else if g.get row col = 0 ∧ alive_neighbors = 3 then 1
  else g.get row col

/-- Function `update_grid(grid, wrap)` (`main.py` lines 198-230): the new grid whose
entry at `(row, col)` is `new_cell` of the old grid; all neighbor counts and
cell reads go to the old `grid`, never to `new_grid`. -/
def update_grid (g : Grid) (wrap : Bool) : Grid :=
  { g with
    cells :=
      (List.range g.rows).map (fun (row : Nat) =>
        (List.range g.cols).map (fun (col : Nat) => new_cell g wrap row col)) }

/-- The engine core of `toggle_cell` (`main.py` lines 244-245): the bounds
check and the unconditional write `grid[row, col] = 1 if draw_mode else 0`.
The source derives `row`, `col` from the mouse pixel position by floor
division with `CELL_SIZE` (lines 242-243); that pixel-to-cell mapping is the
presentation layer's per the spec, and is embedded separately as
`toggle_cell_px`. -/
def toggle_cell (g : Grid) (row col : Int) (draw_mode : Bool) : Grid :=
  if 0 ≤ row ∧ row < (g.rows : Int) ∧ 0 ≤ col ∧ col < (g.cols : Int) then
    g.set row.toNat col.toNat (if draw_mode then 1 else 0)
  else g

/-- The full `toggle_cell(grid, pos, draw_mode)` of the source, pixel
position included: `col = pos[0] // CELL_SIZE`, `row = pos[1] // CELL_SIZE`
(Python `//` is floor division, `Int.fdiv`). -/
def toggle_cell_px (g : Grid) (pos : Int × Int) (draw_mode : Bool) : Grid :=
  toggle_cell g (Int.fdiv pos.2 (CELL_SIZE : Int)) (Int.fdiv pos.1 (CELL_SIZE : Int)) draw_mode

/-- Errors of construction, from the spec's error model. -/
inductive ConstructError where
  | InvalidDimension
  deriving DecidableEq, Repr

/-- Modelled from the spec: the source builds only the fixed session grid
`grid = np.zeros((ROWS, COLS), dtype=int)` (`main.py` line 37) and has no
parametric constructor, so `Construct(rows, cols)` with its
`InvalidDimension` failure for non-positive dimensions is modelled from
spec sections 4.1 and 7: positive dimensions give an all-dead grid of that
size, non-positive dimensions fail with `InvalidDimension`, surfaced to the
caller. -/
def construct (rows cols : Int) : Except ConstructError Grid :=
  if rows ≤ 0 ∨ cols ≤ 0 then Except.error ConstructError.InvalidDimension
  else Except.ok ⟨rows.toNat, cols.toNat, mkCells rows.toNat cols.toNat (fun _ _ => 0)⟩

/-- The life rule exactly as the spec words it, for comparison with
`update_grid`: a live cell with neighbor count below 2 or above 3 becomes
dead, a live cell with count 2 or 3 stays alive, a dead cell with count
exactly 3 becomes alive, a dead cell otherwise stays dead. -/
def spec_life_rule (cur n : Int) : Int :=
  if cur = 1 then (if n < 2 ∨ 3 < n then 0 else 1)
  else (if n = 3 then 1 else 0)

/-- The bounded-mode contribution of offset `(i, j)` to the neighbor count:
the cell value when the neighbor coordinate is in range, `0` otherwise. -/
def bterm (g : Grid) (row col i j : Int) : Int :=
  if 0 ≤ row + i ∧ row + i < (g.rows : Int) ∧ 0 ≤ col + j ∧ col + j < (g.cols : Int)
  then g.get (row + i).toNat (col + j).toNat else 0

/-- The wrapped-mode contribution of offset `(i, j)` to the neighbor count:
the cell value at the coordinates reduced modulo the dimensions. -/
def wterm (g : Grid) (row col i j : Int) : Int :=
  g.get (((row + i) % (g.rows : Int)).toNat) (((col + j) % (g.cols : Int)).toNat)

/-- The all-alive grid. -/
def fullGrid (rows cols : Nat) : Grid :=
  ⟨rows, cols, mkCells rows cols (fun _ _ => 1)⟩

/-- The 3×3 grid whose only live cell is `(0, 0)` (spec's wrap test). -/
def g33 : Grid := ⟨3, 3, [[1, 0, 0], [0, 0, 0], [0, 0, 0]]⟩

/-- Grid whose only live cells are the horizontal triple `(2,1),(2,2),(2,3)`. -/
def blinkerH (rows cols : Nat) : Grid :=
  ⟨rows, cols, mkCells rows cols (fun r c => if r = 2 ∧ (c = 1 ∨ c = 2 ∨ c = 3) then 1 else 0)⟩

/-- Grid whose only live cells are the vertical triple `(1,2),(2,2),(3,2)`. -/
def blinkerV (rows cols : Nat) : Grid :=
  ⟨rows, cols, mkCells rows cols (fun r c => if (r = 1 ∨ r = 2 ∨ r = 3) ∧ c = 2 then 1 else 0)⟩

/-- Integer-coordinate indicator of the horizontal blinker triple. -/
def bHf (r c : Int) : Int := if r = 2 ∧ (c = 1 ∨ c = 2 ∨ c = 3) then 1 else 0

/-- Integer-coordinate indicator of the vertical blinker triple. -/
def bVf (r c : Int) : Int := if (r = 1 ∨ r = 2 ∨ r = 3) ∧ c = 2 then 1 else 0

/-! ## List-level helper lemmas -/

theorem getD_map_range {α : Type} (n : Nat) (f : Nat → α) (r : Nat) (d : α) (h : r < n) :
    ((List.range n).map f).getD r d = f r := by
  simp [List.getD_eq_getElem?_getD, List.getElem?_map, List.getElem?_range, h]

theorem getD_map_range_ge {α : Type} (n : Nat) (f : Nat → α) (r : Nat) (d : α) (h : n ≤ r) :
    ((List.range n).map f).getD r d = d := by
  rw [List.getD_eq_getElem?_getD, List.getElem?_eq_none (by simpa using h)]
  rfl

theorem getD_mem {α : Type} (l : List α) (r : Nat) (d : α) (h : r < l.length) :
    l.getD r d ∈ l := by
  rw [List.getD_eq_getElem?_getD, List.getElem?_eq_getElem h]
  exact List.getElem_mem h

theorem ite_acc (P : Prop) [inst : Decidable P] (acc x : Int) :
    (if P then acc + x else acc) = acc + (if P then x else 0) := by
  split <;> simp

/-! ## Grid access lemmas -/

theorem Grid.get_mkCells (rows cols : Nat) (f : Nat → Nat → Int) (r c : Nat) :
    (Grid.mk rows cols (mkCells rows cols f)).get r c =
      if r < rows ∧ c < cols then f r c else 0 := by
  simp only [Grid.get, mkCells]
  by_cases hr : r < rows
  · rw [getD_map_range _ _ _ _ hr]
    by_cases hc : c < cols
    · rw [getD_map_range _ _ _ _ hc, if_pos ⟨hr, hc⟩]
    · rw [getD_map_range_ge _ _ _ _ (Nat.le_of_not_lt hc), if_neg (by tauto)]
  · rw [getD_map_range_ge _ _ _ _ (Nat.le_of_not_lt hr), if_neg (by tauto)]
    rfl

theorem Grid.binary_get {g : Grid} (hb : g.Binary) (r c : Nat) :
    g.get r c = 0 ∨ g.get r c = 1 := by
  unfold Grid.get
  by_cases hr : r < g.cells.length
  · have hmem : g.cells.getD r [] ∈ g.cells := getD_mem _ _ _ hr
    by_cases hc : c < (g.cells.getD r []).length
    · exact hb _ hmem _ (getD_mem _ _ _ hc)
    · rw [List.getD_eq_getElem?_getD, List.getElem?_eq_none (Nat.le_of_not_lt hc)]
      exact Or.inl rfl
  · rw [List.getD_eq_getElem?_getD (l := g.cells), List.getElem?_eq_none (Nat.le_of_not_lt hr)]
    exact Or.inl rfl

/-! ## Unfolding the neighbor-count fold into its eight contributions -/

theorem count_bounded_unfold (g : Grid) (row col : Int) :
    count_alive_neighbors g row col false =
      bterm g row col (-1) (-1) + bterm g row col (-1) 0 + bterm g row col (-1) 1 +
      bterm g row col 0 (-1) + bterm g row col 0 1 +
      bterm g row col 1 (-1) + bterm g row col 1 0 + bterm g row col 1 1 := by
  simp only [count_alive_neighbors, neighbor_offsets, List.foldl_cons, List.foldl_nil]
  simp [bterm, ite_acc]

theorem count_wrapped_unfold (g : Grid) (row col : Int) :
    count_alive_neighbors g row col true =
      wterm g row col (-1) (-1) + wterm g row col (-1) 0 + wterm g row col (-1) 1 +
      wterm g row col 0 (-1) + wterm g row col 0 1 +
      wterm g row col 1 (-1) + wterm g row col 1 0 + wterm g row col 1 1 := by
  simp only [count_alive_neighbors, neighbor_offsets, List.foldl_cons, List.foldl_nil]
  simp [wterm]

/-! ## The entry of the updated grid -/

theorem update_grid_get (g : Grid) (w : Bool) (r c : Nat) (hr : r < g.rows) (hc : c < g.cols) :
    (update_grid g w).get r c = new_cell g w r c := by
  simp only [update_grid, Grid.get]
  rw [getD_map_range _ _ _ _ hr, getD_map_range _ _ _ _ hc]

/-! ## Evaluating the per-offset contributions on particular grids -/

theorem wterm_fullGrid (rows cols : Nat) (hr : 0 < rows) (hc : 0 < cols) (row col i j : Int) :
    wterm (fullGrid rows cols) row col i j = 1 := by
  have hrz : ((rows : Int)) ≠ 0 := by exact_mod_cast hr.ne'
  have hcz : ((cols : Int)) ≠ 0 := by exact_mod_cast hc.ne'
  have h1 : 0 ≤ (row + i) % (rows : Int) := Int.emod_nonneg _ hrz
  have h2 : (row + i) % (rows : Int) < (rows : Int) := Int.emod_lt_of_pos _ (by exact_mod_cast hr)
  have h3 : 0 ≤ (col + j) % (cols : Int) := Int.emod_nonneg _ hcz
  have h4 : (col + j) % (cols : Int) < (cols : Int) := Int.emod_lt_of_pos _ (by exact_mod_cast hc)
  simp only [wterm, fullGrid, Grid.get_mkCells]
  rw [if_pos]
  generalize hx : (row + i) % (rows : Int) = x at h1 h2
  generalize hy : (col + j) % (cols : Int) = y at h3 h4
  constructor <;> omega

theorem bterm_fullGrid (rows cols : Nat) (row col i j : Int) :
    bterm (fullGrid rows cols) row col i j =
      if 0 ≤ row + i ∧ row + i < (rows : Int) ∧ 0 ≤ col + j ∧ col + j < (cols : Int)
      then 1 else 0 := by
  simp only [bterm, fullGrid, Grid.get_mkCells]
  split_ifs <;> omega

theorem bterm_blinkerH (rows cols : Nat) (hr : 5 ≤ rows) (hc : 5 ≤ cols) (row col i j : Int) :
    bterm (blinkerH rows cols) row col i j = bHf (row + i) (col + j) := by
  simp only [bterm, blinkerH, Grid.get_mkCells, bHf]
  split_ifs <;> omega

theorem bterm_blinkerV (rows cols : Nat) (hr : 5 ≤ rows) (hc : 5 ≤ cols) (row col i j : Int) :
    bterm (blinkerV rows cols) row col i j = bVf (row + i) (col + j) := by
  simp only [bterm, blinkerV, Grid.get_mkCells, bVf]
  split_ifs <;> omega

theorem new_cell_blinkerH (rows cols : Nat) (hr : 5 ≤ rows) (hc : 5 ≤ cols) (r c : Nat)
    (h1 : r < rows) (h2 : c < cols) :
    new_cell (blinkerH rows cols) false r c =
      (if (r = 1 ∨ r = 2 ∨ r = 3) ∧ c = 2 then 1 else 0) := by
  simp only [new_cell, count_bounded_unfold, bterm_blinkerH rows cols hr hc]
  simp only [blinkerH, Grid.get_mkCells, h1, h2, and_self, if_true]
  rcases Nat.lt_or_ge r 5 with h5 | h5
  · interval_cases r
    · norm_num [bHf]
    · norm_num [bHf]; split_ifs <;> omega
    · norm_num [bHf]; split_ifs <;> omega
    · norm_num [bHf]; split_ifs <;> omega
    · norm_num [bHf]
  · have e1 : ¬((r : Int) + -1 = 2) := by omega
    have e2 : ¬((r : Int) + 0 = 2) := by omega
    have e3 : ¬((r : Int) + 1 = 2) := by omega
    have e4 : r ≠ 2 := by omega
    have e5 : r ≠ 1 := by omega
    have e6 : r ≠ 3 := by omega
    have e7 : ¬((r : Int) = 2) := by omega
    simp [bHf, e1, e2, e3, e4, e5, e6, e7]

theorem new_cell_blinkerV (rows cols : Nat) (hr : 5 ≤ rows) (hc : 5 ≤ cols) (r c : Nat)
    (h1 : r < rows) (h2 : c < cols) :
    new_cell (blinkerV rows cols) false r c =
      (if r = 2 ∧ (c = 1 ∨ c = 2 ∨ c = 3) then 1 else 0) := by
  simp only [new_cell, count_bounded_unfold, bterm_blinkerV rows cols hr hc]
  simp only [blinkerV, Grid.get_mkCells, h1, h2, and_self, if_true]
  rcases Nat.lt_or_ge c 5 with h5 | h5
  · interval_cases c
    · norm_num [bVf]
    · norm_num [bVf]; split_ifs <;> omega
    · norm_num [bVf]; split_ifs <;> omega
    · norm_num [bVf]; split_ifs <;> omega
    · norm_num [bVf]
  · have e1 : ¬((c : Int) + -1 = 2) := by omega
    have e2 : ¬((c : Int) + 0 = 2) := by omega
    have e3 : ¬((c : Int) + 1 = 2) := by omega
    have e4 : c ≠ 2 := by omega
    have e5 : c ≠ 1 := by omega
    have e6 : c ≠ 3 := by omega
    have e7 : ¬((c : Int) = 2) := by omega
    simp [bVf, e1, e2, e3, e4, e5, e6, e7]

theorem update_blinkerH_eq (rows cols : Nat) (hr : 5 ≤ rows) (hc : 5 ≤ cols) :
    update_grid (blinkerH rows cols) false = blinkerV rows cols := by
  have key : ((List.range rows).map (fun (row : Nat) =>
      (List.range cols).map (fun (col : Nat) => new_cell (blinkerH rows cols) false row col))) =
      mkCells rows cols (fun r c => if (r = 1 ∨ r = 2 ∨ r = 3) ∧ c = 2 then 1 else 0) := by
    unfold mkCells
    refine List.map_congr_left ?_
    intro r hrm
    refine List.map_congr_left ?_
    intro c hcm
    rw [List.mem_range] at hrm hcm
    exact new_cell_blinkerH rows cols hr hc r c hrm hcm
  show Grid.mk rows cols ((List.range rows).map (fun (row : Nat) =>
      (List.range cols).map (fun (col : Nat) => new_cell (blinkerH rows cols) false row col))) =
    blinkerV rows cols
  rw [key]
  rfl

theorem update_blinkerV_eq (rows cols : Nat) (hr : 5 ≤ rows) (hc : 5 ≤ cols) :
    update_grid (blinkerV rows cols) false = blinkerH rows cols := by
  have key : ((List.range rows).map (fun (row : Nat) =>
      (List.range cols).map (fun (col : Nat) => new_cell (blinkerV rows cols) false row col))) =
      mkCells rows cols (fun r c => if r = 2 ∧ (c = 1 ∨ c = 2 ∨ c = 3) then 1 else 0) := by
    unfold mkCells
    refine List.map_congr_left ?_
    intro r hrm
    refine List.map_congr_left ?_
    intro c hcm
    rw [List.mem_range] at hrm hcm
    exact new_cell_blinkerV rows cols hr hc r c hrm hcm
  show Grid.mk rows cols ((List.range rows).map (fun (row : Nat) =>
      (List.range cols).map (fun (col : Nat) => new_cell (blinkerV rows cols) false row col))) =
    blinkerH rows cols
  rw [key]
  rfl

theorem Grid.rows_set (g : Grid) (r c : Nat) (v : Int) : (g.set r c v).rows = g.rows := rfl

theorem Grid.cols_set (g : Grid) (r c : Nat) (v : Int) : (g.set r c v).cols = g.cols := rfl

theorem Grid.get_set_self (g : Grid) (r c : Nat) (v : Int)
    (hr : r < g.cells.length) (hc : c < (g.cells.getD r []).length) :
    (g.set r c v).get r c = v := by
  have hgetD : g.cells.getD r [] = g.cells[r] := by
    rw [List.getD_eq_getElem?_getD, List.getElem?_eq_getElem hr]
    rfl
  rw [hgetD] at hc
  simp [Grid.set, Grid.get, List.getD_eq_getElem?_getD, List.getElem?_set_self, hr, hc, hgetD]

theorem Grid.get_set_ne (g : Grid) (r c r' c' : Nat) (v : Int)
    (h : r' ≠ r ∨ c' ≠ c) : (g.set r c v).get r' c' = g.get r' c' := by
  by_cases hrr : r' = r
  · subst hrr
    have hcc : c' ≠ c := by tauto
    by_cases hlen : r' < g.cells.length
    · simp [Grid.set, Grid.get, List.getD_eq_getElem?_getD, List.getElem?_set_self hlen,
        List.getElem?_set_ne (Ne.symm hcc)]
    · have heq : g.cells.set r' ((g.cells.getD r' []).set c v) = g.cells :=
        List.set_eq_of_length_le (Nat.le_of_not_lt hlen)
      simp only [Grid.set, heq]
  · simp [Grid.set, Grid.get, List.getD_eq_getElem?_getD, List.getElem?_set_ne (Ne.symm hrr)]

theorem Grid.length_set_cells (g : Grid) (r c : Nat) (v : Int) :
    (g.set r c v).cells.length = g.cells.length := by
  simp [Grid.set]

theorem count_fullGrid_wrapped (rows cols : Nat) (hr : 0 < rows) (hc : 0 < cols) (row col : Int) :
    count_alive_neighbors (fullGrid rows cols) row col true = 8 := by
  rw [count_wrapped_unfold]
  simp [wterm_fullGrid rows cols hr hc]

theorem count_fullGrid_corner (rows cols : Nat) (hr : 2 ≤ rows) (hc : 2 ≤ cols) :
    count_alive_neighbors (fullGrid rows cols) 0 0 false = 3 := by
  rw [count_bounded_unfold]
  simp only [bterm_fullGrid]
  split_ifs <;> omega

theorem count_fullGrid_edge (rows cols : Nat) (hr : 2 ≤ rows) (hc : 3 ≤ cols) :
    count_alive_neighbors (fullGrid rows cols) 0 1 false = 5 := by
  rw [count_bounded_unfold]
  simp only [bterm_fullGrid]
  split_ifs <;> omega

theorem mkCells_wellFormed (rows cols : Nat) (f : Nat → Nat → Int) :
    (Grid.mk rows cols (mkCells rows cols f)).WellFormed := by
  constructor
  · simp [mkCells]
  · intro row hm
    simp only [mkCells, List.mem_map] at hm
    obtain ⟨r, hr, rfl⟩ := hm
    simp

theorem get_eq_getElem (cells : List (List Int)) (i j : Nat)
    (hi : i < cells.length) (hj : j < cells[i].length) :
    (cells.getD i []).getD j 0 = cells[i][j] := by
  have houter : cells.getD i [] = cells[i] := by
    rw [List.getD_eq_getElem?_getD, List.getElem?_eq_getElem hi]
    rfl
  rw [houter, List.getD_eq_getElem?_getD, List.getElem?_eq_getElem hj]
  rfl

theorem grid_eq_of_get (g1 g2 : Grid) (h1 : g1.WellFormed) (h2 : g2.WellFormed)
    (hrows : g1.rows = g2.rows) (hcols : g1.cols = g2.cols)
    (hget : ∀ r c : Nat, r < g1.rows → c < g1.cols → g1.get r c = g2.get r c) :
    g1 = g2 := by
  rcases g1 with ⟨r1, c1, cells1⟩
  rcases g2 with ⟨r2, c2, cells2⟩
  simp only at hrows hcols hget
  obtain ⟨len1, row1⟩ := h1
  obtain ⟨len2, row2⟩ := h2
  simp only at len1 row1 len2 row2
  subst hrows
  subst hcols
  simp only [Grid.mk.injEq, true_and]
  apply List.ext_getElem
  · rw [len1, len2]
  · intro i hi1 hi2
    apply List.ext_getElem
    · rw [row1 _ (List.getElem_mem hi1), row2 _ (List.getElem_mem hi2)]
    · intro j hj1 hj2
      have hi : i < r1 := by rw [← len1]; exact hi1
      have hj : j < c1 := by rw [← row1 _ (List.getElem_mem hi1)]; exact hj1
      have hx := hget i j hi hj
      rw [Grid.get, Grid.get] at hx
      simp only at hx
      rw [get_eq_getElem cells1 i j hi1 hj1, get_eq_getElem cells2 i j hi2 hj2] at hx
      exact hx

theorem new_cell_binary (g : Grid) (w : Bool) (r c : Nat) (hb : g.Binary) :
    new_cell g w r c = 0 ∨ new_cell g w r c = 1 := by
  simp only [new_cell]
  split_ifs with h1 h2
  · exact Or.inl rfl
  · exact Or.inr rfl
  · exact Grid.binary_get hb r c

theorem eq_blinkerH_of_live (g : Grid) (hwf : g.WellFormed) (hbin : g.Binary)
    (hlive : ∀ r : Nat, r < g.rows → ∀ c : Nat, c < g.cols →
      (g.get r c = 1 ↔ r = 2 ∧ (c = 1 ∨ c = 2 ∨ c = 3))) :
    g = blinkerH g.rows g.cols := by
  apply grid_eq_of_get g (blinkerH g.rows g.cols) hwf
    (show (blinkerH g.rows g.cols).WellFormed from mkCells_wellFormed _ _ _) rfl rfl
  intro r c hr hc
  have hbv : (blinkerH g.rows g.cols).get r c =
      if r = 2 ∧ (c = 1 ∨ c = 2 ∨ c = 3) then 1 else 0 := by
    simp only [blinkerH, Grid.get_mkCells]
    rw [if_pos ⟨hr, hc⟩]
  rw [hbv]
  by_cases hcond : r = 2 ∧ (c = 1 ∨ c = 2 ∨ c = 3)
  · rw [if_pos hcond]
    exact (hlive r hr c hc).mpr hcond
  · rw [if_neg hcond]
    rcases Grid.binary_get hbin r c with h0 | h1
    · exact h0
    · exact absurd ((hlive r hr c hc).mp h1) hcond

/-! ## The claims -/

/-- C1: `update_grid` computes the new state of every cell from the old grid
only (every read in `new_cell` and `count_alive_neighbors` goes to the old
grid), and the resulting cell equals the spec's standard Game of Life rule
applied to the cell's old state and its old-grid neighbor count. -/
theorem update_follows_spec_rule (g : Grid) (w : Bool) (hb : g.Binary)
    (r c : Nat) (hr : r < g.rows) (hc : c < g.cols) :
    (update_grid g w).get r c =
      spec_life_rule (g.get r c) (count_alive_neighbors g r c w) := by
  rw [update_grid_get g w r c hr hc]
  simp only [new_cell, spec_life_rule]
  rcases Grid.binary_get hb r c with h0 | h1
  · rw [h0]
    norm_num
  · rw [h1]
    norm_num

/-- Witness for C1 at a concrete grid and cell. -/
theorem update_follows_spec_rule_witness :
    (update_grid g33 false).get 0 0 =
      spec_life_rule (g33.get 0 0) (count_alive_neighbors g33 0 0 false) :=
  update_follows_spec_rule g33 false (by unfold Grid.Binary; decide) 0 0 (by decide) (by decide)

/-- C2: in wrapped mode the neighbor count is the sum of the eight Moore
contributions, each read at coordinates reduced modulo `rows`/`cols`
(`wterm`), so every cell has exactly 8 neighbors (on the all-alive grid the
count is 8 everywhere); in particular, in the 3×3 wrapped grid whose only
live cell is `(0,0)`, the count at `(2,2)` is 1. -/
theorem wrapped_neighbors_torus :
    (∀ (g : Grid) (row col : Int),
        count_alive_neighbors g row col true =
          wterm g row col (-1) (-1) + wterm g row col (-1) 0 + wterm g row col (-1) 1 +
          wterm g row col 0 (-1) + wterm g row col 0 1 +
          wterm g row col 1 (-1) + wterm g row col 1 0 + wterm g row col 1 1) ∧
    (∀ rows cols : Nat, 0 < rows → 0 < cols → ∀ row col : Int,
        count_alive_neighbors (fullGrid rows cols) row col true = 8) ∧
    count_alive_neighbors g33 2 2 true = 1 :=
  ⟨count_wrapped_unfold, count_fullGrid_wrapped, by decide⟩

/-- Witness for C2 at a concrete grid and cell. -/
theorem wrapped_neighbors_torus_witness :
    count_alive_neighbors (fullGrid 3 4) 0 0 true = 8 :=
  wrapped_neighbors_torus.2.1 3 4 (by norm_num) (by norm_num) 0 0

/-- C3: in bounded mode out-of-range neighbor coordinates are excluded: on
the all-alive grid a corner cell counts 3 and a non-corner edge cell counts
5; in particular `count_alive_neighbors (fullGrid 3 3) 0 0 false = 3`,
never 8. -/
theorem bounded_neighbors_clipped :
    (∀ rows cols : Nat, 2 ≤ rows → 2 ≤ cols →
        count_alive_neighbors (fullGrid rows cols) 0 0 false = 3) ∧
    (∀ rows cols : Nat, 2 ≤ rows → 3 ≤ cols →
        count_alive_neighbors (fullGrid rows cols) 0 1 false = 5) ∧
    count_alive_neighbors (fullGrid 3 3) 0 0 false = 3 ∧
    count_alive_neighbors (fullGrid 3 3) 0 0 false ≠ 8 :=
  ⟨count_fullGrid_corner, count_fullGrid_edge, by decide, by decide⟩

/-- Witness for C3 at a concrete grid. -/
theorem bounded_neighbors_clipped_witness :
    count_alive_neighbors (fullGrid 4 7) 0 0 false = 3 :=
  bounded_neighbors_clipped.1 4 7 (by norm_num) (by norm_num)

/-- C4: `toggle_cell` with an out-of-bounds coordinate is a no-op: the whole
grid is returned unchanged (and, being a total function, no error is
raised). -/
theorem toggle_cell_oob_noop (g : Grid) (row col : Int) (dm : Bool)
    (h : row < 0 ∨ (g.rows : Int) ≤ row ∨ col < 0 ∨ (g.cols : Int) ≤ col) :
    toggle_cell g row col dm = g := by
  unfold toggle_cell
  rw [if_neg]
  omega

/-- Witness for C4 at a concrete out-of-bounds call. -/
theorem toggle_cell_oob_noop_witness : toggle_cell g33 (-1) 0 true = g33 :=
  toggle_cell_oob_noop g33 (-1) 0 true (by decide)

/-- C5: `update_grid` is deterministic: on identical input grids with the
same topology flag it yields identical results (it is a pure function). -/
theorem update_grid_deterministic (g1 g2 : Grid) (w : Bool) (h : g1 = g2) :
    update_grid g1 w = update_grid g2 w := by
  rw [h]

/-- Witness for C5 at a concrete grid. -/
theorem update_grid_deterministic_witness :
    update_grid g33 true = update_grid g33 true :=
  update_grid_deterministic g33 g33 true rfl

/-- C6: construction with positive dimensions yields a well-formed all-dead
grid of exactly that size, and fails with `InvalidDimension` (surfaced, not
clamped) whenever either dimension is nonpositive. -/
theorem construct_checks_dimensions (rows cols : Int) :
    (0 < rows → 0 < cols →
      ∃ g : Grid, construct rows cols = Except.ok g ∧ (g.rows : Int) = rows ∧
        (g.cols : Int) = cols ∧ g.WellFormed ∧ ∀ row ∈ g.cells, ∀ v ∈ row, v = 0) ∧
    (rows ≤ 0 ∨ cols ≤ 0 →
      construct rows cols = Except.error ConstructError.InvalidDimension) := by
  constructor
  · intro hr hc
    refine ⟨⟨rows.toNat, cols.toNat, mkCells rows.toNat cols.toNat (fun _ _ => 0)⟩,
      ?_, ?_, ?_, ?_, ?_⟩
    · unfold construct
      rw [if_neg (by omega)]
    · show ((rows.toNat : Int)) = rows
      omega
    · show ((cols.toNat : Int)) = cols
      omega
    · exact mkCells_wellFormed _ _ _
    · intro row hm v hv
      simp only [mkCells, List.mem_map] at hm
      obtain ⟨r, _, rfl⟩ := hm
      simp only [List.mem_map] at hv
      obtain ⟨c, _, rfl⟩ := hv
      rfl
  · intro h
    unfold construct
    rw [if_pos h]

/-- Witness for C6 at concrete dimensions. -/
theorem construct_checks_dimensions_witness :
    ∃ g : Grid, construct 2 3 = Except.ok g ∧ (g.rows : Int) = 2 ∧
      (g.cols : Int) = 3 ∧ g.WellFormed ∧ ∀ row ∈ g.cells, ∀ v ∈ row, v = 0 :=
  (construct_checks_dimensions 2 3).1 (by norm_num) (by norm_num)

/-- C7: `toggle_cell` with an in-bounds coordinate sets that cell
unconditionally to the desired state — `1` in draw mode, `0` in erase mode —
regardless of its previous value (the right-hand side does not depend on the
grid's contents: a set, not a flip). -/
theorem toggle_cell_sets_directly (g : Grid) (row col : Int) (dm : Bool)
    (hwf : g.WellFormed) (h0r : 0 ≤ row) (hr : row < (g.rows : Int))
    (h0c : 0 ≤ col) (hc : col < (g.cols : Int)) :
    (toggle_cell g row col dm).get row.toNat col.toNat = (if dm then 1 else 0) := by
  unfold toggle_cell
  rw [if_pos ⟨h0r, hr, h0c, hc⟩]
  apply Grid.get_set_self
  · rw [hwf.1]
    omega
  · have hmem : g.cells.getD row.toNat [] ∈ g.cells :=
      getD_mem _ _ _ (by rw [hwf.1]; omega)
    rw [hwf.2 _ hmem]
    omega

/-- Witness for C7 at a concrete grid and cell (the cell was dead, erase mode
still writes `0`; draw mode writes `1` over a live cell's position). -/
theorem toggle_cell_sets_directly_witness :
    (toggle_cell g33 0 0 false).get 0 0 = (if false then 1 else 0) :=
  toggle_cell_sets_directly g33 0 0 false (by unfold Grid.WellFormed; decide) (by decide)
    (by decide) (by decide) (by decide)

/-- C8: for every well-formed binary bounded grid of size at least 5×5 whose
only live cells are the horizontal triple `(2,1),(2,2),(2,3)`, one
`update_grid` yields exactly the vertical triple `(1,2),(2,2),(3,2)`, and a
second `update_grid` returns the original grid. -/
theorem blinker_oscillates (g : Grid) (hwf : g.WellFormed) (hbin : g.Binary)
    (hrow : 5 ≤ g.rows) (hcol : 5 ≤ g.cols)
    (hlive : ∀ r : Nat, r < g.rows → ∀ c : Nat, c < g.cols →
      (g.get r c = 1 ↔ r = 2 ∧ (c = 1 ∨ c = 2 ∨ c = 3))) :
    update_grid g false = blinkerV g.rows g.cols ∧
      update_grid (update_grid g false) false = g := by
  have hg := eq_blinkerH_of_live g hwf hbin hlive
  constructor
  · rw [hg]
    exact update_blinkerH_eq g.rows g.cols hrow hcol
  · rw [hg, update_blinkerH_eq g.rows g.cols hrow hcol,
      update_blinkerV_eq g.rows g.cols hrow hcol]

/-- Witness for C8 at the concrete 5×5 blinker grid. -/
theorem blinker_oscillates_witness :
    update_grid (blinkerH 5 5) false = blinkerV (blinkerH 5 5).rows (blinkerH 5 5).cols ∧
      update_grid (update_grid (blinkerH 5 5) false) false = blinkerH 5 5 :=
  blinker_oscillates (blinkerH 5 5) (by unfold Grid.WellFormed; decide)
    (by unfold Grid.Binary; decide) (by decide) (by decide) (by decide)

/-- C9: cell states stay binary: if every cell of the grid is 0 or 1, then
after `update_grid` (either topology) and after `toggle_cell` (any
coordinate, either mode) every cell is still 0 or 1. -/
theorem binary_preserved (g : Grid) (w : Bool) (row col : Int) (dm : Bool)
    (hb : g.Binary) :
    (update_grid g w).Binary ∧ (toggle_cell g row col dm).Binary := by
  constructor
  · intro rrow hm v hv
    simp only [update_grid, List.mem_map] at hm
    obtain ⟨r, _, rfl⟩ := hm
    simp only [List.mem_map] at hv
    obtain ⟨c, _, rfl⟩ := hv
    exact new_cell_binary g w r c hb
  · by_cases hbnd : 0 ≤ row ∧ row < (g.rows : Int) ∧ 0 ≤ col ∧ col < (g.cols : Int)
    · unfold toggle_cell
      rw [if_pos hbnd]
      intro rrow hm v hv
      unfold Grid.set at hm
      simp only at hm
      rcases List.mem_or_eq_of_mem_set hm with hmo | hmeq
      · exact hb _ hmo _ hv
      · subst hmeq
        rcases List.mem_or_eq_of_mem_set hv with hvo | hveq
        · by_cases hlr : row.toNat < g.cells.length
          · exact hb _ (getD_mem _ _ _ hlr) _ hvo
          · rw [List.getD_eq_getElem?_getD,
              List.getElem?_eq_none (Nat.le_of_not_lt hlr)] at hvo
            simp at hvo
        · subst hveq
          cases dm <;> simp
    · unfold toggle_cell
      rw [if_neg hbnd]
      exact hb

/-- Witness for C9 at a concrete grid. -/
theorem binary_preserved_witness :
    (update_grid g33 true).Binary ∧ (toggle_cell g33 1 2 true).Binary :=
  binary_preserved g33 true 1 2 true (by unfold Grid.Binary; decide)

/-- C10: an in-bounds `toggle_cell` changes at most the one targeted cell:
the dimensions and the cell-matrix length are unchanged and every other
cell keeps its previous state. -/
theorem toggle_cell_frame (g : Grid) (row col : Int) (dm : Bool)
    (h0r : 0 ≤ row) (hr : row < (g.rows : Int)) (h0c : 0 ≤ col)
    (hc : col < (g.cols : Int)) :
    (toggle_cell g row col dm).rows = g.rows ∧
    (toggle_cell g row col dm).cols = g.cols ∧
    (toggle_cell g row col dm).cells.length = g.cells.length ∧
    ∀ r' c' : Nat, r' ≠ row.toNat ∨ c' ≠ col.toNat →
      (toggle_cell g row col dm).get r' c' = g.get r' c' := by
  unfold toggle_cell
  rw [if_pos ⟨h0r, hr, h0c, hc⟩]
  refine ⟨rfl, rfl, ?_, ?_⟩
  · exact Grid.length_set_cells g _ _ _
  · intro r' c' h
    exact Grid.get_set_ne g _ _ r' c' _ h

/-- Witness for C10 at a concrete grid and a non-targeted cell. -/
theorem toggle_cell_frame_witness :
    (toggle_cell g33 1 1 true).get 0 0 = g33.get 0 0 :=
  (toggle_cell_frame g33 1 1 true (by decide) (by decide) (by decide)
    (by decide)).2.2.2 0 0 (by decide)
